import Mathlib

/-!
Verification of the nstar repository's algorithmic core against its
specification.  The development shallowly embeds:

* the Morse-code timeline sequencer of `src/public/morse.js`
  (`MorseController`: `textToMorse`, `parseSequence`, `play`, `playNext`,
  `stop`), with durations in milliseconds as natural numbers;
* the 2D screen projector `getScreenPosition` of `src/app.js` over an
  arbitrary linear ordered field (instantiated at `ℚ` for evaluation and
  at `ℝ` inside the resolver pipeline);
* the sidereal-time and horizontal-coordinate math of `src/app.js`
  (`calculateLocalSiderealTime`, `calculateStarPosition`) over `ℝ`,
  with the JavaScript `%` operator modelled exactly (truncated division
  remainder);
* the magnetic-declination approximation of `src/public/app.js`
  (`NorthStarViewer.calculateMagneticDeclination`) over `ℚ`.
-/

/-! ## Morse sequencer: data model (src/public/morse.js lines 21-34) -/

inductive Sig where
  | on : Sig
  | off : Sig
  deriving DecidableEq, Repr

structure Entry where
  kind : Sig
  duration : Nat
  deriving DecidableEq, Repr

def DOT_DURATION : Nat := 200

def DASH_DURATION : Nat := DOT_DURATION * 3

def SYMBOL_GAP : Nat := DOT_DURATION

def LETTER_GAP : Nat := DOT_DURATION * 3

def WORD_GAP : Nat := DOT_DURATION * 7

/-- Morse table of src/public/morse.js lines 2-19; characters not present
map to the empty code, mirroring the JS fallback `MORSE_CODE[char] || ""`.
The apostrophe and double-quote keys are written via their code points. -/
def morseCode (c : Char) : List Char :=
  if c = Char.ofNat 39 then ['.', '-', '-', '-', '-', '.']
  else if c = Char.ofNat 34 then ['.', '-', '.', '.', '-', '.']
  else
    match c with
    | 'A' => ['.', '-']
    | 'B' => ['-', '.', '.', '.']
    | 'C' => ['-', '.', '-', '.']
    | 'D' => ['-', '.', '.']
    | 'E' => ['.']
    | 'F' => ['.', '.', '-', '.']
    | 'G' => ['-', '-', '.']
    | 'H' => ['.', '.', '.', '.']
    | 'I' => ['.', '.']
    | 'J' => ['.', '-', '-', '-']
    | 'K' => ['-', '.', '-']
    | 'L' => ['.', '-', '.', '.']
    | 'M' => ['-', '-']
    | 'N' => ['-', '.']
    | 'O' => ['-', '-', '-']
    | 'P' => ['.', '-', '-', '.']
    | 'Q' => ['-', '-', '.', '-']
    | 'R' => ['.', '-', '.']
    | 'S' => ['.', '.', '.']
    | 'T' => ['-']
    | 'U' => ['.', '.', '-']
    | 'V' => ['.', '.', '.', '-']
    | 'W' => ['.', '-', '-']
    | 'X' => ['-', '.', '.', '-']
    | 'Y' => ['-', '.', '-', '-']
    | 'Z' => ['-', '-', '.', '.']
    | '0' => ['-', '-', '-', '-', '-']
    | '1' => ['.', '-', '-', '-', '-']
    | '2' => ['.', '.', '-', '-', '-']
    | '3' => ['.', '.', '.', '-', '-']
    | '4' => ['.', '.', '.', '.', '-']
    | '5' => ['.', '.', '.', '.', '.']
    | '6' => ['-', '.', '.', '.', '.']
    | '7' => ['-', '-', '.', '.', '.']
    | '8' => ['-', '-', '-', '.', '.']
    | '9' => ['-', '-', '-', '-', '.']
    | '.' => ['.', '-', '.', '-', '.', '-']
    | ',' => ['-', '-', '.', '.', '-', '-']
    | '?' => ['.', '.', '-', '-', '.', '.']
    | '!' => ['-', '.', '-', '.', '-', '-']
    | '/' => ['-', '.', '.', '-', '.']
    | '(' => ['-', '.', '-', '-', '.']
    | ')' => ['-', '.', '-', '-', '.', '-']
    | '&' => ['.', '-', '.', '.', '.']
    | ':' => ['-', '-', '-', '.', '.', '.']
    | ';' => ['-', '.', '-', '.', '-', '.']
    | '=' => ['-', '.', '.', '.', '-']
    | '+' => ['.', '-', '.', '-', '.']
    | '-' => ['-', '.', '.', '.', '.', '-']
    | '_' => ['.', '.', '-', '-', '.', '-']
    | '$' => ['.', '.', '.', '-', '.', '.', '-']
    | '@' => ['.', '-', '-', '.', '-', '.']
    | ' ' => ['/']
    | _ => []

/-- The JavaScript `Array.prototype.join(" ")`: concatenate the pieces with a
single space between consecutive pieces (empty pieces included). -/
def joinSpace : List (List Char) → List Char
  | [] => []
  | [x] => x
  | x :: xs => x ++ ' ' :: joinSpace xs

/-- MorseController.textToMorse (src/public/morse.js lines 36-40):
uppercase each character, map it through the table, join with spaces. -/
def textToMorse (t : List Char) : List Char :=
  joinSpace ((t.map Char.toUpper).map morseCode)

/-- Condition for emitting an intra-character gap after a dot or dash
(src/public/morse.js lines 50 and 55): there is a following character and
it is not a space. -/
def symGapNeeded : List Char → Bool
  | [] => false
  | c2 :: _ => c2 ≠ ' '

/-- MorseController.parseSequence loop (src/public/morse.js lines 46-69),
written as recursion over the Morse string.  The space branch inspects the
following character and, when it is another space or a slash, emits a word
gap and skips that character (the JS `i++`). -/
def parseSeq : List Char → List Entry
  | [] => []
  | c :: rest =>
    if c = '.' then
      { kind := Sig.on, duration := DOT_DURATION } ::
        (if symGapNeeded rest then
          { kind := Sig.off, duration := SYMBOL_GAP } :: parseSeq rest
         else parseSeq rest)
    else if c = '-' then
      { kind := Sig.on, duration := DASH_DURATION } ::
        (if symGapNeeded rest then
          { kind := Sig.off, duration := SYMBOL_GAP } :: parseSeq rest
         else parseSeq rest)
    else if c = ' ' then
      match rest with
      | c2 :: rest2 =>
        if c2 = ' ' ∨ c2 = '/' then
          { kind := Sig.off, duration := WORD_GAP } :: parseSeq rest2
        else
          { kind := Sig.off, duration := LETTER_GAP } :: parseSeq (c2 :: rest2)
      | [] => [{ kind := Sig.off, duration := LETTER_GAP }]
    else if c = '/' then
      { kind := Sig.off, duration := WORD_GAP } :: parseSeq rest
    else
      parseSeq rest

/-- MorseController.parseSequence (src/public/morse.js lines 42-72). -/
def parseSequence (t : List Char) : List Entry :=
  parseSeq (textToMorse t)

def totalDuration (l : List Entry) : Nat :=
  (l.map Entry.duration).sum

def isOn (e : Entry) : Bool :=
  match e.kind with
  | Sig.on => true
  | Sig.off => false

/-- Durations of the on-entries of a timeline, in order. -/
def onDurations (l : List Entry) : List Nat :=
  l.filterMap (fun e => match e.kind with
    | Sig.on => some e.duration
    | Sig.off => none)

/-- No two adjacent entries are both on. -/
def noConsecOn : List Entry → Bool
  | a :: b :: rest => (!(isOn a && isOn b)) && noConsecOn (b :: rest)
  | _ => true

/-- No two adjacent entries are both off. -/
def noConsecOff : List Entry → Bool
  | a :: b :: rest => (!(!isOn a && !isOn b)) && noConsecOff (b :: rest)
  | _ => true

example : parseSequence "SOS".toList =
    [⟨Sig.on, 200⟩, ⟨Sig.off, 200⟩, ⟨Sig.on, 200⟩, ⟨Sig.off, 200⟩, ⟨Sig.on, 200⟩,
     ⟨Sig.off, 600⟩,
     ⟨Sig.on, 600⟩, ⟨Sig.off, 200⟩, ⟨Sig.on, 600⟩, ⟨Sig.off, 200⟩, ⟨Sig.on, 600⟩,
     ⟨Sig.off, 600⟩,
     ⟨Sig.on, 200⟩, ⟨Sig.off, 200⟩, ⟨Sig.on, 200⟩, ⟨Sig.off, 200⟩, ⟨Sig.on, 200⟩] := by
  decide

example : totalDuration (parseSequence "SOS".toList) = 5400 := by decide

example : totalDuration (parseSequence "A#B".toList) = 4200 := by decide

example : totalDuration (parseSequence "AB".toList) = 3400 := by decide

example : noConsecOff (parseSequence "A B".toList) = false := by decide

/-! ## Structural facts about parseSequence timelines -/

/-- Duration contributed by a single Morse symbol to the on-entries. -/
def symDur (c : Char) : Option Nat :=
  if c = '.' then some DOT_DURATION
  else if c = '-' then some DASH_DURATION
  else none

theorem parseSeq_dot (tail : List Char) :
    parseSeq ('.' :: tail) = { kind := Sig.on, duration := DOT_DURATION } ::
      (if symGapNeeded tail then
        { kind := Sig.off, duration := SYMBOL_GAP } :: parseSeq tail
       else parseSeq tail) := by
  rw [parseSeq.eq_def]
  simp

theorem parseSeq_dash (tail : List Char) :
    parseSeq ('-' :: tail) = { kind := Sig.on, duration := DASH_DURATION } ::
      (if symGapNeeded tail then
        { kind := Sig.off, duration := SYMBOL_GAP } :: parseSeq tail
       else parseSeq tail) := by
  rw [parseSeq.eq_def]
  simp

theorem parseSeq_space_cons (c2 : Char) (rest2 : List Char) :
    parseSeq (' ' :: c2 :: rest2) =
      if c2 = ' ' ∨ c2 = '/' then
        { kind := Sig.off, duration := WORD_GAP } :: parseSeq rest2
      else
        { kind := Sig.off, duration := LETTER_GAP } :: parseSeq (c2 :: rest2) := by
  rw [parseSeq.eq_def]
  simp

theorem parseSeq_slash (tail : List Char) :
    parseSeq ('/' :: tail) = { kind := Sig.off, duration := WORD_GAP } :: parseSeq tail := by
  rw [parseSeq.eq_def]
  simp

theorem parseSeq_other (c : Char) (tail : List Char) (h1 : ¬ c = '.') (h2 : ¬ c = '-')
    (h3 : ¬ c = ' ') (h4 : ¬ c = '/') : parseSeq (c :: tail) = parseSeq tail := by
  rw [parseSeq.eq_def]
  simp [h1, h2, h3, h4]

theorem parseSeq_space_headOff (r : List Char) :
    ∃ d t, parseSeq (' ' :: r) = { kind := Sig.off, duration := d } :: t := by
  cases r with
  | nil => exact ⟨LETTER_GAP, [], rfl⟩
  | cons c2 r2 =>
    by_cases h : c2 = ' ' ∨ c2 = '/'
    · exact ⟨WORD_GAP, parseSeq r2, by rw [parseSeq_space_cons, if_pos h]⟩
    · exact ⟨LETTER_GAP, parseSeq (c2 :: r2), by rw [parseSeq_space_cons, if_neg h]⟩

theorem noConsecOn_cons (a : Entry) (l : List Entry) (h1 : noConsecOn l = true)
    (h2 : isOn a = false ∨ ∀ b t, l = b :: t → isOn b = false) :
    noConsecOn (a :: l) = true := by
  cases l with
  | nil => rfl
  | cons b t =>
    show ((!(isOn a && isOn b)) && noConsecOn (b :: t)) = true
    rw [h1]
    cases h2 with
    | inl h => simp [h]
    | inr h => simp [h b t rfl]

theorem symGapNeeded_false {tail : List Char} (h : symGapNeeded tail = false) :
    tail = [] ∨ ∃ t2, tail = ' ' :: t2 := by
  cases tail with
  | nil => exact Or.inl rfl
  | cons c2 t2 =>
    right
    simp [symGapNeeded] at h
    exact ⟨t2, by rw [h]⟩

/-- After an on-entry emitted for a dot or a dash the sequencer always
emits an off-entry (or ends): the timeline never contains two consecutive
on-entries.  This is the alternation half that does hold. -/
theorem parseSeq_noConsecOn (m : List Char) : noConsecOn (parseSeq m) = true := by
  induction m using parseSeq.induct with
  | case1 => rfl
  | case2 tail ih =>
    rw [parseSeq_dot]
    by_cases hg : symGapNeeded tail = true
    · rw [if_pos hg]
      refine noConsecOn_cons _ _ ?_ (Or.inr ?_)
      · exact noConsecOn_cons _ _ ih (Or.inl rfl)
      · intro b t hbt
        cases hbt
        rfl
    · rw [if_neg hg]
      rcases symGapNeeded_false (Bool.not_eq_true _ ▸ hg) with hnil | ⟨t2, hsp⟩
      · rw [hnil]
        rfl
      · refine noConsecOn_cons _ _ ih (Or.inr ?_)
        intro b t hbt
        rcases parseSeq_space_headOff t2 with ⟨d, tl, hb⟩
        rw [hsp, hb] at hbt
        cases hbt
        rfl
  | case3 tail _ ih =>
    rw [parseSeq_dash]
    by_cases hg : symGapNeeded tail = true
    · rw [if_pos hg]
      refine noConsecOn_cons _ _ ?_ (Or.inr ?_)
      · exact noConsecOn_cons _ _ ih (Or.inl rfl)
      · intro b t hbt
        cases hbt
        rfl
    · rw [if_neg hg]
      rcases symGapNeeded_false (Bool.not_eq_true _ ▸ hg) with hnil | ⟨t2, hsp⟩
      · rw [hnil]
        rfl
      · refine noConsecOn_cons _ _ ih (Or.inr ?_)
        intro b t hbt
        rcases parseSeq_space_headOff t2 with ⟨d, tl, hb⟩
        rw [hsp, hb] at hbt
        cases hbt
        rfl
  | case4 c2 rest2 hc _ _ ih =>
    rw [parseSeq_space_cons, if_pos hc]
    exact noConsecOn_cons _ _ ih (Or.inl rfl)
  | case5 c2 rest2 hc _ _ ih =>
    rw [parseSeq_space_cons, if_neg hc]
    exact noConsecOn_cons _ _ ih (Or.inl rfl)
  | case6 _ _ => rfl
  | case7 tail _ _ _ ih =>
    rw [parseSeq_slash]
    exact noConsecOn_cons _ _ ih (Or.inl rfl)
  | case8 c2 tail h1 h2 h3 h4 ih =>
    rw [parseSeq_other c2 tail h1 h2 h3 h4]
    exact ih

/-- The on-entries of a parsed timeline are exactly the dot/dash symbols of
the Morse string, in order, with their durations; gaps and unknown
characters never contribute an on-entry. -/
theorem parseSeq_onDurations (m : List Char) :
    onDurations (parseSeq m) = m.filterMap symDur := by
  induction m using parseSeq.induct with
  | case1 => rfl
  | case2 tail ih =>
    rw [parseSeq_dot]
    by_cases hg : symGapNeeded tail = true
    · rw [if_pos hg]
      simp only [onDurations, List.filterMap_cons, symDur] at ih ⊢
      simp [ih]
    · rw [if_neg hg]
      simp only [onDurations, List.filterMap_cons, symDur] at ih ⊢
      simp [ih]
  | case3 tail hne ih =>
    rw [parseSeq_dash]
    by_cases hg : symGapNeeded tail = true
    · rw [if_pos hg]
      simp only [onDurations, List.filterMap_cons, symDur] at ih ⊢
      simp [hne, ih]
    · rw [if_neg hg]
      simp only [onDurations, List.filterMap_cons, symDur] at ih ⊢
      simp [hne, ih]
  | case4 c2 rest2 hc _ _ ih =>
    rw [parseSeq_space_cons, if_pos hc]
    have hsym : symDur c2 = none := by
      rcases hc with h | h <;> simp [symDur, h]
    simp only [onDurations, List.filterMap_cons, symDur] at ih ⊢
    simp only [List.filterMap_cons] at hsym ⊢
    simp [ih, symDur] at hsym ⊢
    rcases hc with h | h <;> simp [h, ih]
  | case5 c2 rest2 hc _ _ ih =>
    rw [parseSeq_space_cons, if_neg hc]
    simp only [onDurations, List.filterMap_cons, symDur] at ih ⊢
    simp [ih]
  | case6 _ _ => rfl
  | case7 tail _ _ _ ih =>
    rw [parseSeq_slash]
    simp only [onDurations, List.filterMap_cons, symDur] at ih ⊢
    simp [ih]
  | case8 c2 tail h1 h2 h3 h4 ih =>
    rw [parseSeq_other c2 tail h1 h2 h3 h4]
    simp only [onDurations, List.filterMap_cons, symDur] at ih ⊢
    simp [h1, h2, ih]

/-- The space separators inserted by `join(" ")` never contribute
on-entries: the symbols of the joined string are the symbols of the
pieces. -/
theorem joinSpace_filterMap_symDur (l : List (List Char)) :
    (joinSpace l).filterMap symDur = (l.map (fun x => x.filterMap symDur)).flatten := by
  induction l using joinSpace.induct with
  | case1 => rfl
  | case2 x => simp [joinSpace]
  | case3 x xs hne ih =>
    have heq : joinSpace (x :: xs) = x ++ ' ' :: joinSpace xs := by
      cases xs with
      | nil => exact absurd rfl hne
      | cons y ys => rfl
    have hsp : symDur ' ' = none := rfl
    rw [heq, List.filterMap_append, List.filterMap_cons, hsp, ih]
    simp

/-! ## Morse sequencer: play / stop state machine (src/public/morse.js 74-121)

The controller state carries the `isPlaying` flag, the pending
`setTimeout` handle (modelled as the scheduled duration, `none` when no
timer is pending), the loaded timeline and the cursor.  Callback
invocations are recorded as an event trace; the callbacks are assumed to
be provided (the JS guards `if (this.onCallback)` etc. succeed). -/

structure MC where
  isPlaying : Bool
  pending : Option Nat
  sequence : List Entry
  currentIndex : Nat
  deriving DecidableEq, Repr

inductive Ev where
  | on : Ev
  | off : Ev
  | complete : Ev
  deriving DecidableEq, Repr

/-- The callback fired for a timeline entry (src/public/morse.js 100-104). -/
def evOf (e : Entry) : Ev :=
  match e.kind with
  | Sig.on => Ev.on
  | Sig.off => Ev.off

/-- Constructor state (src/public/morse.js 22-27). -/
def initMC : MC :=
  { isPlaying := false, pending := none, sequence := [], currentIndex := 0 }

/-- MorseController.stop (src/public/morse.js 112-121): clear the playing
flag, cancel any pending timer, invoke the off-callback. -/
def stopMC (s : MC) : MC × List Ev :=
  ({ s with isPlaying := false, pending := none }, [Ev.off])

/-- MorseController.playNext (src/public/morse.js 89-110): when not playing
or the cursor is exhausted, stop and fire the completion callback;
otherwise dispatch the current entry's callback and schedule a timer for
its duration. -/
def playNextMC (s : MC) : MC × List Ev :=
  if ¬ s.isPlaying ∨ s.sequence.length ≤ s.currentIndex then
    let r := stopMC s
    (r.1, r.2 ++ [Ev.complete])
  else
    let current := s.sequence.getD s.currentIndex { kind := Sig.off, duration := 0 }
    ({ s with pending := some current.duration }, [evOf current])

/-- MorseController.play (src/public/morse.js 74-87): stop a run already in
progress, load the freshly parsed timeline, reset the cursor, set the
playing flag, and dispatch step 0. -/
def playMC (text : List Char) (s : MC) : MC × List Ev :=
  let r1 := if s.isPlaying then stopMC s else (s, [])
  let s2 : MC :=
    { r1.1 with sequence := parseSequence text, currentIndex := 0, isPlaying := true }
  let r2 := playNextMC s2
  (r2.1, r1.2 ++ r2.2)

/-- Firing of the pending timer (the `setTimeout` body, src/public/morse.js
106-109): advance the cursor and run `playNext`.  A cancelled timer
(`pending = none`) never fires. -/
def timerFire (s : MC) : MC × List Ev :=
  match s.pending with
  | none => (s, [])
  | some _ => playNextMC { s with currentIndex := s.currentIndex + 1, pending := none }

/-- Drive the timer chain: fire pending timers one after another, up to
`fuel` times, collecting the dispatched callback events. -/
def fireAll : Nat → MC → List Ev
  | 0, _ => []
  | n + 1, s =>
    match s.pending with
    | none => []
    | some _ =>
      let r := timerFire s
      r.2 ++ fireAll n r.1

def defaultEntry : Entry := { kind := Sig.off, duration := 0 }

/-- State of a run in flight: playing, a timer pending, cursor at `i`. -/
def runState (L : List Entry) (i d : Nat) : MC :=
  { isPlaying := true, pending := some d, sequence := L, currentIndex := i }

/-- State right after the pending timer fired, before `playNext` acts. -/
def midState (L : List Entry) (i : Nat) : MC :=
  { isPlaying := true, pending := none, sequence := L, currentIndex := i }

/-- State after the final `stop` of a run. -/
def doneState (L : List Entry) (i : Nat) : MC :=
  { isPlaying := false, pending := none, sequence := L, currentIndex := i }

theorem fireAll_of_pending_none (n : Nat) (s : MC) (h : s.pending = none) :
    fireAll n s = [] := by
  cases n with
  | zero => rfl
  | succ n =>
    show (match s.pending with
      | none => []
      | some _ => (timerFire s).2 ++ fireAll n (timerFire s).1) = []
    rw [h]

theorem fireAll_spec (fuel : Nat) :
    ∀ (L : List Entry) (i d : Nat), i < L.length → L.length - i ≤ fuel →
      fireAll fuel (runState L i d)
        = (L.drop (i + 1)).map evOf ++ [Ev.off, Ev.complete] := by
  induction fuel with
  | zero => intro L i d h1 h2; omega
  | succ n ih =>
    intro L i d h1 h2
    have hstep : fireAll (n + 1) (runState L i d)
        = (timerFire (runState L i d)).2 ++ fireAll n (timerFire (runState L i d)).1 := rfl
    have htf : timerFire (runState L i d) = playNextMC (midState L (i + 1)) := rfl
    by_cases hlen : L.length ≤ i + 1
    · have hp : playNextMC (midState L (i + 1))
          = (doneState L (i + 1), [Ev.off, Ev.complete]) := by
        simp [playNextMC, midState, doneState, stopMC, hlen]
      rw [hstep, htf, hp]
      have hdrop : L.drop (i + 1) = [] := List.drop_eq_nil_of_le hlen
      simp [fireAll_of_pending_none n (doneState L (i + 1)) rfl, hdrop]
    · push_neg at hlen
      have hp : playNextMC (midState L (i + 1))
          = (runState L (i + 1) (L.getD (i + 1) defaultEntry).duration,
             [evOf (L.getD (i + 1) defaultEntry)]) := by
        simp [playNextMC, midState, runState, defaultEntry, Nat.not_le.mpr hlen]
      rw [hstep, htf, hp]
      show [evOf (L.getD (i + 1) defaultEntry)] ++
          fireAll n (runState L (i + 1) (L.getD (i + 1) defaultEntry).duration) = _
      rw [ih L (i + 1) _ hlen (by omega)]
      have hget : L.getD (i + 1) defaultEntry = L[i + 1] := by
        simp [List.getD_eq_getElem?_getD, List.getElem?_eq_getElem hlen]
      rw [List.drop_eq_getElem_cons hlen, List.map_cons, hget]
      rfl

theorem playMC_init (A : List Char) :
    playMC A initMC = playNextMC (midState (parseSequence A) 0) := rfl

theorem playNextMC_nonempty (L : List Entry) (h : 0 < L.length) :
    playNextMC (midState L 0)
      = (runState L 0 (L.getD 0 defaultEntry).duration, [evOf (L.getD 0 defaultEntry)]) := by
  unfold playNextMC midState runState defaultEntry
  rw [if_neg]
  simp
  intro hL
  rw [hL] at h
  simp at h

theorem playNextMC_nil :
    playNextMC (midState [] 0) = (doneState [] 0, [Ev.off, Ev.complete]) := rfl

/-- A second `play` issued while a run is in flight first performs `stop`:
the pending timer is cleared, the off-callback fires once, and the state
then holds only the new timeline. -/
theorem playMC_from_playing (B : List Char) (L : List Entry) (i d : Nat) :
    playMC B (runState L i d)
      = ((playNextMC (midState (parseSequence B) 0)).1,
         Ev.off :: (playNextMC (midState (parseSequence B) 0)).2) := rfl

/-- Events dispatched after a fresh `play` on a playing state, run to
completion: one cancel-off, then one event per timeline entry, then the
final off and completion callbacks. -/
theorem play_on_playing_trace (B : List Char) (L : List Entry) (i d : Nat) :
    (playMC B (runState L i d)).2 ++
        fireAll (parseSequence B).length (playMC B (runState L i d)).1
      = Ev.off :: ((parseSequence B).map evOf ++ [Ev.off, Ev.complete]) := by
  rw [playMC_from_playing]
  cases hB : parseSequence B with
  | nil =>
    rw [hB] at *
    rw [playNextMC_nil]
    simp [fireAll_of_pending_none, doneState]
  | cons b bs =>
    have hlen : 0 < (b :: bs).length := by simp
    rw [playNextMC_nonempty _ hlen]
    have hfa : fireAll (b :: bs).length
        (runState (b :: bs) 0 ((b :: bs).getD 0 defaultEntry).duration)
        = ((b :: bs).drop 1).map evOf ++ [Ev.off, Ev.complete] :=
      fireAll_spec _ _ 0 _ hlen (by simp)
    have hd0 : (b :: bs).getD 0 defaultEntry = b := rfl
    rw [hd0] at hfa
    simp only [List.drop_succ_cons, List.drop_zero] at hfa
    simp
    simpa using hfa

/-! ## 2D screen projector (src/app.js lines 149-169)

Modelled over an arbitrary linear ordered field so that it can be
evaluated exactly on `ℚ` and composed with the real-valued resolver.
The parameters `alpha` and `beta` are the `deviceOrientation` globals
read by the function; `w`, `h` are the canvas dimensions. -/

/-- Normalization of the relative azimuth (src/app.js lines 155-156):
two sequential conditional shifts by 360. -/
def normAz {K : Type} [LinearOrderedField K] (d : K) : K :=
  let r1 := if d > 180 then d - 360 else d
  if r1 < -180 then r1 + 360 else r1

/-- getScreenPosition (src/app.js lines 149-169): returns `none` when the
target lies outside the field of view, otherwise the linear pixel-space
mapping of the relative angles. -/
def getScreenPosition {K : Type} [LinearOrderedField K]
    (w h alpha beta altitude azimuth : K) : Option (K × K) :=
  let relativeAzimuth := normAz (azimuth - alpha)
  let relativeAltitude := altitude - (90 - beta)
  let fov : K := 60
  if |relativeAzimuth| > fov / 2 ∨ |relativeAltitude| > fov / 2 then none
  else some (w / 2 + relativeAzimuth / fov * w, h / 2 - relativeAltitude / fov * h)

example : getScreenPosition (100 : ℚ) 100 0 0 50 40 = none := by
  norm_num [getScreenPosition, normAz]

example : getScreenPosition (100 : ℚ) 100 0 0 5 40 = none := by
  norm_num [getScreenPosition, normAz]

example : getScreenPosition (100 : ℚ) 100 0 0 70 20 = some (250/3, 250/3) := by
  norm_num [getScreenPosition, normAz]

example : getScreenPosition (100 : ℚ) 100 0 0 90 0 = some (50, 50) := by
  norm_num [getScreenPosition, normAz]

/-! ## Magnetic declination approximation (src/public/app.js lines 330-359) -/

/-- NorthStarViewer.calculateMagneticDeclination: piecewise-linear fit by
longitude band, plus a latitude adjustment.  The JS decimal literals are
exact decimal fractions. -/
def calculateMagneticDeclination (latitude longitude : ℚ) : ℚ :=
  let declination : ℚ :=
    if -130 ≤ longitude ∧ longitude ≤ -70 then (longitude + 100) * 0.5 - 10
    else if -10 ≤ longitude ∧ longitude ≤ 40 then longitude * 0.25
    else if 70 ≤ longitude ∧ longitude ≤ 150 then (longitude - 110) * 0.3
    else longitude * 0.1
  declination + (latitude - 45) * 0.05

example : calculateMagneticDeclination 40 (-74) = 2.75 := by
  norm_num [calculateMagneticDeclination]

example : calculateMagneticDeclination 45 200 = 20 := by
  norm_num [calculateMagneticDeclination]

/-! ## Sidereal time and star position (src/app.js lines 22-23, 108-147)

The JavaScript remainder `x % m` is the truncated-division remainder:
`x - m * trunc(x / m)`, where `trunc` rounds toward zero. -/

open Real

noncomputable def jsFmod (x m : ℝ) : ℝ :=
  if x / m < 0 then x - m * (⌈x / m⌉ : ℤ) else x - m * (⌊x / m⌋ : ℤ)

/-- calculateLocalSiderealTime (src/app.js lines 135-147).  The `Date`
arithmetic is abstracted into its two real-valued observables:
`daysSinceJ2000` (line 137) and the fractional UTC `hours` (line 141). -/
noncomputable def calculateLocalSiderealTime
    (daysSinceJ2000 hours longitude : ℝ) : ℝ :=
  let GMST := 18.697374558 + 24.06570982441908 * daysSinceJ2000
  let hoursSinceJ2000 := hours * 1.00273790935
  let LST := jsFmod (GMST + hoursSinceJ2000 + longitude / 15) 24
  if LST < 0 then LST + 24 else LST

theorem jsFmod_24_bounds (x : ℝ) : -24 < jsFmod x 24 ∧ jsFmod x 24 < 24 := by
  unfold jsFmod
  have hx : x = 24 * (x / 24) := by ring
  split
  · have h1 := Int.le_ceil (x / 24)
    have h2 := Int.ceil_lt_add_one (x / 24)
    constructor <;> nlinarith
  · have h1 := Int.floor_le (x / 24)
    have h2 := Int.lt_floor_add_one (x / 24)
    constructor <;> nlinarith

noncomputable def POLARIS_RA : ℝ := 37.95456067

noncomputable def POLARIS_DEC : ℝ := 89.264109

/-- The `sinAlt` intermediate of calculateStarPosition (src/app.js line
122), as a function of latitude, declination and hour angle in radians. -/
noncomputable def sinAltOf (lat dec ha : ℝ) : ℝ :=
  sin dec * sin lat + cos dec * cos lat * cos ha

/-- The altitude output of calculateStarPosition (line 123), degrees. -/
noncomputable def altitudeOf (lat dec ha : ℝ) : ℝ :=
  arcsin (sinAltOf lat dec ha) * 180 / π

/-- The `cosAz` intermediate of calculateStarPosition (line 125). -/
noncomputable def cosAzOf (lat dec ha : ℝ) : ℝ :=
  (sin dec - sin lat * sinAltOf lat dec ha) /
    (cos lat * cos (arcsin (sinAltOf lat dec ha)))

/-- The azimuth output of calculateStarPosition (lines 126-130): arccos of
the clamped `cosAz`, reflected to `360 - azimuth` when `sin ha > 0`. -/
noncomputable def azimuthOf (lat dec ha : ℝ) : ℝ :=
  if sin ha > 0 then
    360 - arccos (max (-1) (min 1 (cosAzOf lat dec ha))) * 180 / π
  else
    arccos (max (-1) (min 1 (cosAzOf lat dec ha))) * 180 / π

/-- calculateStarPosition (src/app.js lines 108-133): `none` when the
observer latitude is unavailable, otherwise the altitude/azimuth of
Polaris from the local sidereal time. -/
noncomputable def calculateStarPosition
    (latitude : Option ℝ) (longitude daysSinceJ2000 hours : ℝ) : Option (ℝ × ℝ) :=
  match latitude with
  | none => none
  | some latdeg =>
    let lst := calculateLocalSiderealTime daysSinceJ2000 hours longitude
    let polarisHA := lst - POLARIS_RA / 15
    let lat := latdeg * π / 180
    let dec := POLARIS_DEC * π / 180
    let ha := polarisHA * 15 * π / 180
    some (altitudeOf lat dec ha, azimuthOf lat dec ha)

/-- The drawing decision of animate (src/app.js lines 271-277): the star is
drawn only when the resolver produced a position and the projector reports
it visible. -/
noncomputable def animateDrawsStar (latitude : Option ℝ)
    (longitude daysSinceJ2000 hours w h alpha beta : ℝ) : Bool :=
  match calculateStarPosition latitude longitude daysSinceJ2000 hours with
  | none => false
  | some p => (getScreenPosition w h alpha beta p.1 p.2).isSome

/-! ## Range analysis of the azimuth computation -/

theorem arccos_deg_bounds (z : ℝ) :
    0 ≤ arccos z * 180 / π ∧ arccos z * 180 / π ≤ 180 := by
  have h1 := Real.arccos_nonneg z
  have h2 := Real.arccos_le_pi z
  have hpi := Real.pi_pos
  constructor
  · positivity
  · rw [div_le_iff₀ hpi]
    nlinarith

theorem sinAlt_identity (lat dec ha : ℝ) :
    sin dec - sin lat * sinAltOf lat dec ha
      = cos lat * (sin dec * cos lat - cos dec * sin lat * cos ha) := by
  unfold sinAltOf
  linear_combination (-(Real.sin dec)) * Real.sin_sq_add_cos_sq lat

theorem cosAlt_sq_identity (lat dec ha : ℝ) :
    1 - sinAltOf lat dec ha ^ 2
      = (sin dec * cos lat - cos dec * sin lat * cos ha) ^ 2
        + (cos dec * sin ha) ^ 2 := by
  unfold sinAltOf
  linear_combination
    (-(Real.sin dec ^ 2 + Real.cos dec ^ 2 * Real.cos ha ^ 2)) * Real.sin_sq_add_cos_sq lat
      + (-(Real.cos dec ^ 2)) * Real.sin_sq_add_cos_sq ha
      + (-1) * Real.sin_sq_add_cos_sq dec

/-- With a valid observer latitude and `cos dec ≠ 0`, the computed `cosAz`
stays strictly below 1 whenever `sin ha ≠ 0`, so the clamped arccos is
strictly positive. -/
theorem cosAzOf_lt_one (lat dec ha : ℝ)
    (hlat₁ : -(π/2) ≤ lat) (hlat₂ : lat ≤ π/2)
    (hcl : cos lat ≠ 0) (hcd : cos dec ≠ 0) (hha : sin ha ≠ 0) :
    cosAzOf lat dec ha < 1 := by
  have hclpos : 0 < cos lat :=
    lt_of_le_of_ne (Real.cos_nonneg_of_mem_Icc ⟨hlat₁, hlat₂⟩) (Ne.symm hcl)
  have hY2 : 0 < (cos dec * sin ha) ^ 2 := by positivity
  have hXY : 0 < (sin dec * cos lat - cos dec * sin lat * cos ha) ^ 2
      + (cos dec * sin ha) ^ 2 :=
    add_pos_of_nonneg_of_pos (sq_nonneg _) hY2
  have hsqrtpos : 0 < Real.sqrt ((sin dec * cos lat - cos dec * sin lat * cos ha) ^ 2
      + (cos dec * sin ha) ^ 2) := Real.sqrt_pos.mpr hXY
  have hXlt : sin dec * cos lat - cos dec * sin lat * cos ha
      < Real.sqrt ((sin dec * cos lat - cos dec * sin lat * cos ha) ^ 2
          + (cos dec * sin ha) ^ 2) := by
    calc sin dec * cos lat - cos dec * sin lat * cos ha
        ≤ |sin dec * cos lat - cos dec * sin lat * cos ha| := le_abs_self _
      _ = Real.sqrt ((sin dec * cos lat - cos dec * sin lat * cos ha) ^ 2) :=
          (Real.sqrt_sq_eq_abs _).symm
      _ < _ := Real.sqrt_lt_sqrt (sq_nonneg _) (by linarith)
  have hcAz : cosAzOf lat dec ha
      = (sin dec * cos lat - cos dec * sin lat * cos ha) /
          Real.sqrt ((sin dec * cos lat - cos dec * sin lat * cos ha) ^ 2
            + (cos dec * sin ha) ^ 2) := by
    unfold cosAzOf
    rw [Real.cos_arcsin, sinAlt_identity]
    rw [show Real.sqrt (1 - sinAltOf lat dec ha ^ 2)
        = Real.sqrt ((sin dec * cos lat - cos dec * sin lat * cos ha) ^ 2
            + (cos dec * sin ha) ^ 2) from by rw [cosAlt_sq_identity]]
    rw [mul_div_mul_left _ _ (ne_of_gt hclpos)]
  rw [hcAz]
  exact (div_lt_one hsqrtpos).mpr hXlt

/-! ## Claim theorems -/

/-- C1: for every date (decomposed into fractional days since J2000 and
fractional UTC hours) and every longitude, the output of
`calculateLocalSiderealTime` lies in the half-open interval [0, 24): the
truncated-division remainder by 24 lies in (-24, 24), and the final
negative-remainder correction shifts the negative case into (0, 24). -/
theorem lst_in_range (daysSinceJ2000 hours longitude : ℝ) :
    0 ≤ calculateLocalSiderealTime daysSinceJ2000 hours longitude ∧
      calculateLocalSiderealTime daysSinceJ2000 hours longitude < 24 := by
  unfold calculateLocalSiderealTime
  simp only []
  obtain ⟨h1, h2⟩ := jsFmod_24_bounds
    ((18.697374558 + 24.06570982441908 * daysSinceJ2000)
      + hours * 1.00273790935 + longitude / 15)
  split
  next h => constructor <;> linarith
  next h => constructor <;> linarith

/-- C2 counterexample: at observer latitude 0 (so `cos lat = 1 ≠ 0`),
declination 90 degrees (`π/2` radians, a valid declination) and hour angle
90 degrees, `sin ha = 1 > 0` and the clamped `cosAz` equals 1, so the code
returns `360 - arccos 1 * 180 / π = 360`, which is outside [0, 360). -/
theorem azimuth_360_counterexample :
    cos 0 ≠ 0 ∧ azimuthOf 0 (π/2) (π/2) = 360 ∧
      ¬ azimuthOf 0 (π/2) (π/2) < 360 := by
  have hs : sinAltOf 0 (π/2) (π/2) = 0 := by
    unfold sinAltOf
    simp
  have hc : cosAzOf 0 (π/2) (π/2) = 1 := by
    unfold cosAzOf
    rw [hs]
    simp
  have haz : azimuthOf 0 (π/2) (π/2) = 360 := by
    unfold azimuthOf
    rw [hc]
    simp [Real.sin_pi_div_two, Real.arccos_one]
  refine ⟨by simp, haz, by rw [haz]; norm_num⟩

/-- C2 (amended): for a valid observer latitude (|lat| ≤ π/2 radians) with
`cos lat ≠ 0`, and a declination with `cos dec ≠ 0`, the azimuth computed
by the resolver lies in [0, 360).  Without the `cos dec ≠ 0` proviso the
code can return exactly 360 (see the counterexample), and the bound
weakens to [0, 360]. -/
theorem azimuthOf_mem_Ico (lat dec ha : ℝ)
    (hlat₁ : -(π/2) ≤ lat) (hlat₂ : lat ≤ π/2)
    (hcl : cos lat ≠ 0) (hcd : cos dec ≠ 0) :
    0 ≤ azimuthOf lat dec ha ∧ azimuthOf lat dec ha < 360 := by
  obtain ⟨hA0, hA180⟩ := arccos_deg_bounds (max (-1) (min 1 (cosAzOf lat dec ha)))
  unfold azimuthOf
  split
  next hha =>
    have hlt1 : cosAzOf lat dec ha < 1 :=
      cosAzOf_lt_one lat dec ha hlat₁ hlat₂ hcl hcd (ne_of_gt hha)
    have hclamp : max (-1) (min 1 (cosAzOf lat dec ha)) < 1 := by
      apply max_lt
      · norm_num
      · exact lt_of_le_of_lt (min_le_right _ _) hlt1
    have harc : 0 < arccos (max (-1) (min 1 (cosAzOf lat dec ha))) :=
      Real.arccos_pos.mpr hclamp
    have hApos : 0 < arccos (max (-1) (min 1 (cosAzOf lat dec ha))) * 180 / π := by
      have hpi := Real.pi_pos
      positivity
    constructor <;> linarith
  next hha =>
    constructor <;> linarith

/-- C2 witness: the amended range theorem applied at latitude 0,
declination 0, hour angle 0, where all hypotheses hold concretely. -/
theorem azimuthOf_mem_Ico_witness :
    (-(π/2) ≤ (0:ℝ) ∧ (0:ℝ) ≤ π/2 ∧ cos (0:ℝ) ≠ 0) ∧
      (0 ≤ azimuthOf 0 0 0 ∧ azimuthOf 0 0 0 < 360) := by
  have hpi := Real.pi_pos
  exact ⟨⟨by linarith, by linarith, by simp⟩,
    azimuthOf_mem_Ico 0 0 0 (by linarith) (by linarith) (by simp) (by simp)⟩

/-- C9: when the observer latitude is unavailable, the resolver returns no
position, and the animate loop draws nothing: the projector is never
consulted and the draw decision is false. -/
theorem no_latitude_no_draw (longitude daysSinceJ2000 hours w h alpha beta : ℝ) :
    calculateStarPosition none longitude daysSinceJ2000 hours = none ∧
      animateDrawsStar none longitude daysSinceJ2000 hours w h alpha beta = false :=
  ⟨rfl, rfl⟩

/-- C3 counterexample: with heading 0, tilt 0 and FOV 60, the target at
azimuth 40, altitude 50 is reported NOT visible, contrary to the claim:
its relative azimuth is 40 - 0 = 40 > FOV/2 = 30 (and its relative
altitude 50 - 90 = -40 is also out of bounds), so the projector returns
`none`. -/
theorem fov_gating_counterexample :
    getScreenPosition (100:ℚ) 100 0 0 50 40 = none := by
  norm_num [getScreenPosition, normAz]

/-- C3 (amended): with heading 0, tilt 0, FOV 60, the target at azimuth
40, altitude 50 is not visible (relative azimuth 40 exceeds half-FOV 30),
the target at azimuth 40, altitude 5 is not visible, and a target within
both bounds — azimuth 20, altitude 70, giving relative angles 20 and -20 —
is visible with an in-canvas position. -/
theorem fov_gating :
    getScreenPosition (100:ℚ) 100 0 0 50 40 = none ∧
      getScreenPosition (100:ℚ) 100 0 0 5 40 = none ∧
      getScreenPosition (100:ℚ) 100 0 0 70 20 = some (250/3, 250/3) := by
  refine ⟨?_, ?_, ?_⟩ <;> norm_num [getScreenPosition, normAz]

/-- C4: encoding "SOS" at dot = 200 ms yields exactly three 200 ms pulses,
a single 600 ms letter gap, three 600 ms pulses, a single 600 ms letter
gap, and three 200 ms pulses, with 200 ms symbol gaps between pulses of
the same letter and no trailing off entry; the durations sum to 5400 ms. -/
theorem sos_timeline :
    parseSequence "SOS".toList =
      [⟨Sig.on, 200⟩, ⟨Sig.off, 200⟩, ⟨Sig.on, 200⟩, ⟨Sig.off, 200⟩, ⟨Sig.on, 200⟩,
       ⟨Sig.off, 600⟩,
       ⟨Sig.on, 600⟩, ⟨Sig.off, 200⟩, ⟨Sig.on, 600⟩, ⟨Sig.off, 200⟩, ⟨Sig.on, 600⟩,
       ⟨Sig.off, 600⟩,
       ⟨Sig.on, 200⟩, ⟨Sig.off, 200⟩, ⟨Sig.on, 200⟩, ⟨Sig.off, 200⟩, ⟨Sig.on, 200⟩] ∧
      totalDuration (parseSequence "SOS".toList) = 5400 := by
  constructor <;> decide

/-- C5 counterexample: for the input "A B" the timeline contains two
consecutive off entries — the 1400 ms word gap produced from the first
space and slash is immediately followed by a 600 ms letter gap produced
from the second space — so the claimed merging of consecutive gaps into a
single off entry does not happen. -/
theorem consec_off_counterexample :
    noConsecOff (parseSequence "A B".toList) = false := by decide

/-- C5 (amended): the timeline never contains two consecutive ON entries —
every dot or dash pulse is followed by an off gap or ends the timeline —
but at a word boundary the word-gap off entry may be immediately followed
by a letter-gap off entry, so consecutive off entries do occur. -/
theorem timeline_no_consec_on (t : List Char) :
    noConsecOn (parseSequence t) = true :=
  parseSeq_noConsecOn (textToMorse t)

/-- C6 counterexample: the unmapped character in "A#B" does not contribute
zero duration to the timeline: its empty code makes the two surrounding
join separators merge into a 1400 ms word gap where "AB" has a 600 ms
letter gap, so the totals differ (4200 ms versus 3400 ms). -/
theorem unmapped_zero_duration_counterexample :
    ¬ totalDuration (parseSequence "A#B".toList)
        = totalDuration (parseSequence "AB".toList) := by decide

/-- C6 (amended): an unmapped character produces no on-pulse — for every
text the on-entries of the timeline are exactly the dot/dash durations of
the mapped characters, and playback of the remaining characters proceeds —
but it can contribute nonzero OFF time: in "A#B" the on-entries equal
those of "AB" while the total duration is 800 ms longer (word gap in place
of letter gap). -/
theorem unmapped_no_pulse :
    (∀ t : List Char, onDurations (parseSequence t)
        = (t.map (fun c => (morseCode (Char.toUpper c)).filterMap symDur)).flatten) ∧
      onDurations (parseSequence "A#B".toList) = onDurations (parseSequence "AB".toList) ∧
      totalDuration (parseSequence "A#B".toList)
        = totalDuration (parseSequence "AB".toList) + 800 := by
  refine ⟨?_, by decide, by decide⟩
  intro t
  calc onDurations (parseSeq (textToMorse t))
      = (textToMorse t).filterMap symDur := parseSeq_onDurations _
    _ = (((t.map Char.toUpper).map morseCode).map (fun x => x.filterMap symDur)).flatten :=
        joinSpace_filterMap_symDur _
    _ = (t.map (fun c => (morseCode (Char.toUpper c)).filterMap symDur)).flatten := by
        rw [List.map_map, List.map_map]
        rfl

/-- C7: if `play A` starts a run (nonempty timeline, so a timer is
pending) and `play B` is called before that timer fires, the pending timer
is cancelled and the off-callback fires once, after which only B's
timeline drives the callbacks: the full event trace from the second call
onwards is the cancel-off followed by exactly B's entries, the final off
and the completion callback — independent of A. -/
theorem play_reentrant (A B : List Char) (hA : parseSequence A ≠ []) :
    (playMC B (playMC A initMC).1).2 ++
        fireAll (parseSequence B).length (playMC B (playMC A initMC).1).1
      = Ev.off :: ((parseSequence B).map evOf ++ [Ev.off, Ev.complete]) := by
  have hlen : 0 < (parseSequence A).length := List.length_pos.mpr hA
  have h1 : (playMC A initMC).1
      = runState (parseSequence A) 0 ((parseSequence A).getD 0 defaultEntry).duration := by
    rw [playMC_init, playNextMC_nonempty _ hlen]
  rw [h1]
  exact play_on_playing_trace B _ 0 _

/-- C7 witness: the re-entrancy theorem applied to the concrete texts "E"
and "T". -/
theorem play_reentrant_witness :
    parseSequence "E".toList ≠ [] ∧
      (playMC "T".toList (playMC "E".toList initMC).1).2 ++
          fireAll (parseSequence "T".toList).length
            (playMC "T".toList (playMC "E".toList initMC).1).1
        = Ev.off :: ((parseSequence "T".toList).map evOf ++ [Ev.off, Ev.complete]) :=
  ⟨by decide, play_reentrant _ _ (by decide)⟩

/-- C8: for any longitude outside the three bands [-130,-70], [-10,40] and
[70,150], `calculateMagneticDeclination` takes the default branch and
returns exactly `longitude * 0.1 + (latitude - 45) * 0.05`; the function
is total, so no exception is possible. -/
theorem declination_default_band (latitude longitude : ℚ)
    (h1 : ¬ (-130 ≤ longitude ∧ longitude ≤ -70))
    (h2 : ¬ (-10 ≤ longitude ∧ longitude ≤ 40))
    (h3 : ¬ (70 ≤ longitude ∧ longitude ≤ 150)) :
    calculateMagneticDeclination latitude longitude
      = longitude * 0.1 + (latitude - 45) * 0.05 := by
  unfold calculateMagneticDeclination
  simp only []
  rw [if_neg h1, if_neg h2, if_neg h3]

/-- C8 witness: the default-band theorem applied at latitude 0, longitude
200, which lies outside all three bands. -/
theorem declination_default_band_witness :
    (¬ (-130 ≤ (200:ℚ) ∧ (200:ℚ) ≤ -70) ∧ ¬ (-10 ≤ (200:ℚ) ∧ (200:ℚ) ≤ 40) ∧
        ¬ (70 ≤ (200:ℚ) ∧ (200:ℚ) ≤ 150)) ∧
      calculateMagneticDeclination 0 200 = 200 * 0.1 + (0 - 45) * 0.05 :=
  ⟨⟨by norm_num, by norm_num, by norm_num⟩,
    declination_default_band 0 200 (by norm_num) (by norm_num) (by norm_num)⟩

/-- C10: whenever the projector reports the target visible, the returned
coordinates lie inside the canvas: with nonnegative canvas dimensions,
`0 ≤ x ≤ w` and `0 ≤ y ≤ h`, because visibility bounds the relative
angles by half the 60-degree FOV and the pixel mapping is linear. -/
theorem screen_position_in_canvas (w h alpha beta altitude azimuth x y : ℚ)
    (hw : 0 ≤ w) (hh : 0 ≤ h)
    (hpos : getScreenPosition w h alpha beta altitude azimuth = some (x, y)) :
    0 ≤ x ∧ x ≤ w ∧ 0 ≤ y ∧ y ≤ h := by
  unfold getScreenPosition at hpos
  simp only [] at hpos
  split at hpos
  · exact absurd hpos (by simp)
  next hcond =>
    push_neg at hcond
    obtain ⟨hca, hcb⟩ := hcond
    obtain ⟨hx, hy⟩ := Prod.mk.injEq .. ▸ Option.some.inj hpos
    obtain ⟨hca1, hca2⟩ := abs_le.mp hca
    obtain ⟨hcb1, hcb2⟩ := abs_le.mp hcb
    norm_num at hca1 hca2 hcb1 hcb2
    refine ⟨?_, ?_, ?_, ?_⟩
    · rw [← hx]
      nlinarith [mul_nonneg (by linarith : (0:ℚ) ≤ normAz (azimuth - alpha) + 30) hw]
    · rw [← hx]
      nlinarith [mul_nonneg (by linarith : (0:ℚ) ≤ 30 - normAz (azimuth - alpha)) hw]
    · rw [← hy]
      nlinarith [mul_nonneg (by linarith : (0:ℚ) ≤ 30 - (altitude - (90 - beta))) hh]
    · rw [← hy]
      nlinarith [mul_nonneg (by linarith : (0:ℚ) ≤ altitude - (90 - beta) + 30) hh]

/-- C10 witness: the in-canvas theorem applied to the concrete visible
configuration of a 100 by 100 canvas with the target straight ahead. -/
theorem screen_position_in_canvas_witness :
    ((0:ℚ) ≤ 100 ∧ (0:ℚ) ≤ 100 ∧
        getScreenPosition (100:ℚ) 100 0 0 90 0 = some (50, 50)) ∧
      (0 ≤ (50:ℚ) ∧ (50:ℚ) ≤ 100 ∧ 0 ≤ (50:ℚ) ∧ (50:ℚ) ≤ 100) :=
  ⟨⟨by norm_num, by norm_num, by norm_num [getScreenPosition, normAz]⟩,
    screen_position_in_canvas 100 100 0 0 90 0 50 50 (by norm_num) (by norm_num)
      (by norm_num [getScreenPosition, normAz])⟩
